import Mathlib

/-!
Verification of the cube state and move engine of the CubeVision repository.

The definitions below are a shallow embedding of the TypeScript sources:
* `CubeStateManager` in `client/src/components/ImageCropper.tsx`
  (`rotateFace`, the six per-face rotation helpers, `performMove`),
* `validateCubeState` in the same file,
* `algorithmToNotation`, `parseNotation`, `optimizeMoves` in
  `client/src/lib/cubeUtils.ts`,
* `saveCube` / `loadCube` in `client/src/lib/stores/useCube.tsx`.

Sticker colors are strings, faces are lists of strings (the source uses
`string[]`), and a cube state is a record of six faces.  JavaScript's
in-place array mutation is modelled by value-passing: each helper returns
the updated state.  The sequential sticker assignments of the source are
sequentialisation-safe (every assignment reads only values not yet
overwritten in that block, thanks to the saved `temp`), so each block is
embedded as one simultaneous rewrite of the affected faces.
-/

namespace CubeVision

/-- The six face letters of `Move.face` in `cubeUtils.ts`. -/
inductive Face : Type where
  | R | L | U | D | F | B
deriving DecidableEq, Repr

/-- A `Move` from `cubeUtils.ts`: a face and a rotation count.
The TypeScript type annotates `rotation : 1 | 2 | 3`, but the rotation
helpers accept any number (`rotation > 0` decides the direction,
`Math.abs(rotation)` the iteration count), so we embed it as `Int`. -/
structure Move : Type where
  face : Face
  rotation : Int
deriving DecidableEq, Repr

/-- `CubeColors` from `useCube.tsx`: six string arrays of sticker colors. -/
structure CubeColors : Type where
  front : List String
  back : List String
  left : List String
  right : List String
  top : List String
  bottom : List String
deriving DecidableEq, Repr

/-- Structural validity: all six faces present with exactly 9 stickers. -/
def validState (s : CubeColors) : Prop :=
  s.front.length = 9 ∧ s.back.length = 9 ∧ s.left.length = 9 ∧
    s.right.length = 9 ∧ s.top.length = 9 ∧ s.bottom.length = 9

instance (s : CubeColors) : Decidable (validState s) := by
  unfold validState; infer_instance

/-- `CubeStateManager.rotateFace`: rotate one face's 9 stickers 90°.
The source guards `face.length !== 9` and returns unchanged otherwise;
the guard is the fall-through arm of the match. -/
def rotateFace (face : List String) (clockwise : Bool) : List String :=
  match face, clockwise with
  | [a0, a1, a2, a3, a4, a5, a6, a7, a8], true =>
      [a6, a3, a0, a7, a4, a1, a8, a5, a2]
  | [a0, a1, a2, a3, a4, a5, a6, a7, a8], false =>
      [a2, a5, a8, a1, a4, a7, a0, a3, a6]
  | other, _ => other

/-- One iteration of the loop body of `rotateRightFace`: rotate the right
face, then cycle the adjacent columns (both directions implemented). -/
def rightStep (s : CubeColors) (clockwise : Bool) : CubeColors :=
  let s1 := { s with right := rotateFace s.right clockwise }
  match s1.front, s1.top, s1.back, s1.bottom with
  | [f0, f1, f2, f3, f4, f5, f6, f7, f8],
    [u0, u1, u2, u3, u4, u5, u6, u7, u8],
    [b0, b1, b2, b3, b4, b5, b6, b7, b8],
    [d0, d1, d2, d3, d4, d5, d6, d7, d8] =>
      if clockwise then
        { s1 with
          front := [f0, f1, d2, f3, f4, d5, f6, f7, d8]
          bottom := [d0, d1, b6, d3, d4, b3, d6, d7, b0]
          back := [u8, b1, b2, u5, b4, b5, u2, b7, b8]
          top := [u0, u1, f2, u3, u4, f5, u6, u7, f8] }
      else
        { s1 with
          front := [f0, f1, u2, f3, f4, u5, f6, f7, u8]
          top := [u0, u1, b6, u3, u4, b3, u6, u7, b0]
          back := [d8, b1, b2, d5, b4, b5, d2, b7, b8]
          bottom := [d0, d1, f2, d3, d4, f5, d6, d7, f8] }
  | _, _, _, _ => s1

/-- One iteration of the loop body of `rotateLeftFace`.  The source only
implements the clockwise branch for the adjacent strips. -/
def leftStep (s : CubeColors) (clockwise : Bool) : CubeColors :=
  let s1 := { s with left := rotateFace s.left clockwise }
  match s1.front, s1.top, s1.back, s1.bottom with
  | [f0, f1, f2, f3, f4, f5, f6, f7, f8],
    [u0, u1, u2, u3, u4, u5, u6, u7, u8],
    [b0, b1, b2, b3, b4, b5, b6, b7, b8],
    [d0, d1, d2, d3, d4, d5, d6, d7, d8] =>
      if clockwise then
        { s1 with
          front := [u0, f1, f2, u3, f4, f5, u6, f7, f8]
          top := [b8, u1, u2, b5, u4, u5, b2, u7, u8]
          back := [b0, b1, d6, b3, b4, d3, b6, b7, d0]
          bottom := [f0, d1, d2, f3, d4, d5, f6, d7, d8] }
      else s1
  | _, _, _, _ => s1

/-- One iteration of the loop body of `rotateTopFace` (clockwise only). -/
def topStep (s : CubeColors) (clockwise : Bool) : CubeColors :=
  let s1 := { s with top := rotateFace s.top clockwise }
  match s1.front, s1.left, s1.back, s1.right with
  | [f0, f1, f2, f3, f4, f5, f6, f7, f8],
    [l0, l1, l2, l3, l4, l5, l6, l7, l8],
    [b0, b1, b2, b3, b4, b5, b6, b7, b8],
    [r0, r1, r2, r3, r4, r5, r6, r7, r8] =>
      if clockwise then
        { s1 with
          front := [r0, r1, r2, f3, f4, f5, f6, f7, f8]
          right := [b0, b1, b2, r3, r4, r5, r6, r7, r8]
          back := [l0, l1, l2, b3, b4, b5, b6, b7, b8]
          left := [f0, f1, f2, l3, l4, l5, l6, l7, l8] }
      else s1
  | _, _, _, _ => s1

/-- One iteration of the loop body of `rotateBottomFace` (clockwise only). -/
def bottomStep (s : CubeColors) (clockwise : Bool) : CubeColors :=
  let s1 := { s with bottom := rotateFace s.bottom clockwise }
  match s1.front, s1.left, s1.back, s1.right with
  | [f0, f1, f2, f3, f4, f5, f6, f7, f8],
    [l0, l1, l2, l3, l4, l5, l6, l7, l8],
    [b0, b1, b2, b3, b4, b5, b6, b7, b8],
    [r0, r1, r2, r3, r4, r5, r6, r7, r8] =>
      if clockwise then
        { s1 with
          front := [f0, f1, f2, f3, f4, f5, l6, l7, l8]
          left := [l0, l1, l2, l3, l4, l5, b6, b7, b8]
          back := [b0, b1, b2, b3, b4, b5, r6, r7, r8]
          right := [r0, r1, r2, r3, r4, r5, f6, f7, f8] }
      else s1
  | _, _, _, _ => s1

/-- One iteration of the loop body of `rotateFrontFace` (clockwise only). -/
def frontStep (s : CubeColors) (clockwise : Bool) : CubeColors :=
  let s1 := { s with front := rotateFace s.front clockwise }
  match s1.top, s1.left, s1.bottom, s1.right with
  | [u0, u1, u2, u3, u4, u5, u6, u7, u8],
    [l0, l1, l2, l3, l4, l5, l6, l7, l8],
    [d0, d1, d2, d3, d4, d5, d6, d7, d8],
    [r0, r1, r2, r3, r4, r5, r6, r7, r8] =>
      if clockwise then
        { s1 with
          top := [u0, u1, u2, u3, u4, u5, l8, l5, l2]
          left := [l0, l1, d0, l3, l4, d1, l6, l7, d2]
          bottom := [r6, r3, r0, d3, d4, d5, d6, d7, d8]
          right := [u6, r1, r2, u7, r4, r5, u8, r7, r8] }
      else s1
  | _, _, _, _ => s1

/-- One iteration of the loop body of `rotateBackFace` (clockwise only). -/
def backStep (s : CubeColors) (clockwise : Bool) : CubeColors :=
  let s1 := { s with back := rotateFace s.back clockwise }
  match s1.top, s1.left, s1.bottom, s1.right with
  | [u0, u1, u2, u3, u4, u5, u6, u7, u8],
    [l0, l1, l2, l3, l4, l5, l6, l7, l8],
    [d0, d1, d2, d3, d4, d5, d6, d7, d8],
    [r0, r1, r2, r3, r4, r5, r6, r7, r8] =>
      if clockwise then
        { s1 with
          top := [r2, r5, r8, u3, u4, u5, u6, u7, u8]
          right := [r0, r1, d8, r3, r4, d7, r6, r7, d6]
          bottom := [d0, d1, d2, d3, d4, d5, l0, l3, l6]
          left := [u2, l1, l2, u1, l4, l5, u0, l7, l8] }
      else s1
  | _, _, _, _ => s1

/-- `rotateRightFace`: `clockwise = rotation > 0`, body iterated
`Math.abs(rotation)` times. -/
def rotateRightFace (s : CubeColors) (rotation : Int) : CubeColors :=
  (fun st => rightStep st (decide (0 < rotation)))^[rotation.natAbs] s

/-- `rotateLeftFace` from the source. -/
def rotateLeftFace (s : CubeColors) (rotation : Int) : CubeColors :=
  (fun st => leftStep st (decide (0 < rotation)))^[rotation.natAbs] s

/-- `rotateTopFace` from the source. -/
def rotateTopFace (s : CubeColors) (rotation : Int) : CubeColors :=
  (fun st => topStep st (decide (0 < rotation)))^[rotation.natAbs] s

/-- `rotateBottomFace` from the source. -/
def rotateBottomFace (s : CubeColors) (rotation : Int) : CubeColors :=
  (fun st => bottomStep st (decide (0 < rotation)))^[rotation.natAbs] s

/-- `rotateFrontFace` from the source. -/
def rotateFrontFace (s : CubeColors) (rotation : Int) : CubeColors :=
  (fun st => frontStep st (decide (0 < rotation)))^[rotation.natAbs] s

/-- `rotateBackFace` from the source. -/
def rotateBackFace (s : CubeColors) (rotation : Int) : CubeColors :=
  (fun st => backStep st (decide (0 < rotation)))^[rotation.natAbs] s

/-- `CubeStateManager.performMove`: deep-copy (a no-op under value
semantics) and dispatch on the face letter. -/
def performMove (s : CubeColors) (m : Move) : CubeColors :=
  match m.face with
  | .R => rotateRightFace s m.rotation
  | .L => rotateLeftFace s m.rotation
  | .U => rotateTopFace s m.rotation
  | .D => rotateBottomFace s m.rotation
  | .F => rotateFrontFace s m.rotation
  | .B => rotateBackFace s m.rotation

/-- Folding `performMove` over a list of moves (how callers in the source
apply an algorithm move by move). -/
def applyMoves (s : CubeColors) (ms : List Move) : CubeColors :=
  ms.foldl performMove s

end CubeVision

namespace CubeVision

/-- A list of length 9 is a literal 9-element list. -/
theorem exists_nine (l : List String) (h : l.length = 9) :
    ∃ x0 x1 x2 x3 x4 x5 x6 x7 x8,
      l = [x0, x1, x2, x3, x4, x5, x6, x7, x8] := by
  rcases l with _ | ⟨x0, l⟩
  · simp at h
  rcases l with _ | ⟨x1, l⟩
  · simp at h
  rcases l with _ | ⟨x2, l⟩
  · simp at h
  rcases l with _ | ⟨x3, l⟩
  · simp at h
  rcases l with _ | ⟨x4, l⟩
  · simp at h
  rcases l with _ | ⟨x5, l⟩
  · simp at h
  rcases l with _ | ⟨x6, l⟩
  · simp at h
  rcases l with _ | ⟨x7, l⟩
  · simp at h
  rcases l with _ | ⟨x8, l⟩
  · simp at h
  rcases l with _ | ⟨x9, l⟩
  · exact ⟨x0, x1, x2, x3, x4, x5, x6, x7, x8, rfl⟩
  · simp at h

/-- A structurally valid cube state decomposes into 54 explicit stickers. -/
theorem cube_decomp (s : CubeColors) (hs : validState s) :
    ∃ f0 f1 f2 f3 f4 f5 f6 f7 f8 b0 b1 b2 b3 b4 b5 b6 b7 b8
      l0 l1 l2 l3 l4 l5 l6 l7 l8 r0 r1 r2 r3 r4 r5 r6 r7 r8
      u0 u1 u2 u3 u4 u5 u6 u7 u8 d0 d1 d2 d3 d4 d5 d6 d7 d8,
      s = ⟨[f0, f1, f2, f3, f4, f5, f6, f7, f8],
           [b0, b1, b2, b3, b4, b5, b6, b7, b8],
           [l0, l1, l2, l3, l4, l5, l6, l7, l8],
           [r0, r1, r2, r3, r4, r5, r6, r7, r8],
           [u0, u1, u2, u3, u4, u5, u6, u7, u8],
           [d0, d1, d2, d3, d4, d5, d6, d7, d8]⟩ := by
  obtain ⟨fr, bk, lf, rt, tp, bt⟩ := s
  obtain ⟨hf, hb, hl, hr, hu, hd⟩ := hs
  obtain ⟨f0, f1, f2, f3, f4, f5, f6, f7, f8, rfl⟩ := exists_nine fr hf
  obtain ⟨b0, b1, b2, b3, b4, b5, b6, b7, b8, rfl⟩ := exists_nine bk hb
  obtain ⟨l0, l1, l2, l3, l4, l5, l6, l7, l8, rfl⟩ := exists_nine lf hl
  obtain ⟨r0, r1, r2, r3, r4, r5, r6, r7, r8, rfl⟩ := exists_nine rt hr
  obtain ⟨u0, u1, u2, u3, u4, u5, u6, u7, u8, rfl⟩ := exists_nine tp hu
  obtain ⟨d0, d1, d2, d3, d4, d5, d6, d7, d8, rfl⟩ := exists_nine bt hd
  exact ⟨f0, f1, f2, f3, f4, f5, f6, f7, f8, b0, b1, b2, b3, b4, b5, b6, b7, b8,
         l0, l1, l2, l3, l4, l5, l6, l7, l8, r0, r1, r2, r3, r4, r5, r6, r7, r8,
         u0, u1, u2, u3, u4, u5, u6, u7, u8, d0, d1, d2, d3, d4, d5, d6, d7, d8, rfl⟩

/-- The clockwise index mapping of `rotateFace`: `new[i] = old[p[i]]`. -/
def pClockwise : List Nat := [6, 3, 0, 7, 4, 1, 8, 5, 2]

/-- The counter-clockwise index mapping of `rotateFace`. -/
def qCounter : List Nat := [2, 5, 8, 1, 4, 7, 0, 3, 6]

/-- C4: for every 9-sticker face, rotating clockwise with
`CubeStateManager.rotateFace` gives `new[i] = old[p[i]]` with
`p = [6,3,0,7,4,1,8,5,2]`, counter-clockwise gives `new[i] = old[q[i]]`
with `q = [2,5,8,1,4,7,0,3,6]`, and `q` is the inverse permutation of
`p`. -/
theorem c4_rotateFace_index_mapping (l : List String) (h : l.length = 9)
    (i : Nat) (hi : i < 9) :
    (rotateFace l true).getD i "" = l.getD (pClockwise.getD i 0) "" ∧
    (rotateFace l false).getD i "" = l.getD (qCounter.getD i 0) "" ∧
    pClockwise.getD (qCounter.getD i 0) 0 = i ∧
    qCounter.getD (pClockwise.getD i 0) 0 = i := by
  obtain ⟨x0, x1, x2, x3, x4, x5, x6, x7, x8, rfl⟩ := exists_nine l h
  interval_cases i <;>
    exact ⟨rfl, rfl, rfl, rfl⟩

/-- A concrete 9-sticker face used to witness facts about `rotateFace`. -/
def demoFace : List String :=
  ["c0", "c1", "c2", "c3", "c4", "c5", "c6", "c7", "c8"]

/-- Witness for C4 at the concrete face `demoFace` and index 1. -/
theorem c4_rotateFace_index_mapping_witness :
    demoFace.length = 9 ∧ (1 : Nat) < 9 ∧
    ((rotateFace demoFace true).getD 1 "" =
        demoFace.getD (pClockwise.getD 1 0) "" ∧
      (rotateFace demoFace false).getD 1 "" =
        demoFace.getD (qCounter.getD 1 0) "" ∧
      pClockwise.getD (qCounter.getD 1 0) 0 = 1 ∧
      qCounter.getD (pClockwise.getD 1 0) 0 = 1) :=
  ⟨by decide, by decide,
    c4_rotateFace_index_mapping demoFace (by decide) 1 (by decide)⟩

/-- The solved reference state with the conventional colors:
top white, bottom yellow, front red, back orange, left blue, right
green. -/
def solvedState : CubeColors :=
  ⟨List.replicate 9 "red", List.replicate 9 "orange",
   List.replicate 9 "blue", List.replicate 9 "green",
   List.replicate 9 "white", List.replicate 9 "yellow"⟩

/-- The solved state after one clockwise quarter turn of the right
face. -/
def solvedAfterR : CubeColors := performMove solvedState ⟨Face.R, 1⟩

/-- C2: from the solved conventional state, `Move(R, 1)` keeps the right
face all green, sends the old front column [2,5,8] to top [2,5,8], the
old top column [2,5,8] to back [6,3,0], the old back [6,3,0] to bottom
[2,5,8], and the old bottom [2,5,8] to front [2,5,8]. -/
theorem c2_single_R_turn :
    solvedAfterR.right = List.replicate 9 "green" ∧
    (solvedAfterR.top.getD 2 "" = solvedState.front.getD 2 "" ∧
      solvedAfterR.top.getD 5 "" = solvedState.front.getD 5 "" ∧
      solvedAfterR.top.getD 8 "" = solvedState.front.getD 8 "") ∧
    (solvedAfterR.back.getD 6 "" = solvedState.top.getD 2 "" ∧
      solvedAfterR.back.getD 3 "" = solvedState.top.getD 5 "" ∧
      solvedAfterR.back.getD 0 "" = solvedState.top.getD 8 "") ∧
    (solvedAfterR.bottom.getD 2 "" = solvedState.back.getD 6 "" ∧
      solvedAfterR.bottom.getD 5 "" = solvedState.back.getD 3 "" ∧
      solvedAfterR.bottom.getD 8 "" = solvedState.back.getD 0 "") ∧
    (solvedAfterR.front.getD 2 "" = solvedState.bottom.getD 2 "" ∧
      solvedAfterR.front.getD 5 "" = solvedState.bottom.getD 5 "" ∧
      solvedAfterR.front.getD 8 "" = solvedState.bottom.getD 8 "") := by
  decide

end CubeVision

namespace CubeVision

/-- The clockwise single-turn step of each face (the loop body of the
per-face helper with `clockwise = true`). -/
def cwStep (f : Face) (s : CubeColors) : CubeColors :=
  match f with
  | .R => rightStep s true
  | .L => leftStep s true
  | .U => topStep s true
  | .D => bottomStep s true
  | .F => frontStep s true
  | .B => backStep s true

/-- For a positive rotation, `performMove` iterates the clockwise step
`rotation` times. -/
theorem performMove_pos (s : CubeColors) (f : Face) (r : Int) (hr : 0 < r) :
    performMove s ⟨f, r⟩ = (cwStep f)^[r.natAbs] s := by
  have hd : decide (0 < r) = true := decide_eq_true hr
  cases f with
  | R =>
      show (fun st => rightStep st (decide (0 < r)))^[r.natAbs] s = _
      simp only [hd]
      rfl
  | L =>
      show (fun st => leftStep st (decide (0 < r)))^[r.natAbs] s = _
      simp only [hd]
      rfl
  | U =>
      show (fun st => topStep st (decide (0 < r)))^[r.natAbs] s = _
      simp only [hd]
      rfl
  | D =>
      show (fun st => bottomStep st (decide (0 < r)))^[r.natAbs] s = _
      simp only [hd]
      rfl
  | F =>
      show (fun st => frontStep st (decide (0 < r)))^[r.natAbs] s = _
      simp only [hd]
      rfl
  | B =>
      show (fun st => backStep st (decide (0 < r)))^[r.natAbs] s = _
      simp only [hd]
      rfl

/-- A clockwise step keeps all six faces at 9 stickers. -/
theorem validState_cwStep (f : Face) (s : CubeColors) (hs : validState s) :
    validState (cwStep f s) := by
  obtain ⟨f0, f1, f2, f3, f4, f5, f6, f7, f8, b0, b1, b2, b3, b4, b5, b6, b7, b8,
    l0, l1, l2, l3, l4, l5, l6, l7, l8, r0, r1, r2, r3, r4, r5, r6, r7, r8,
    u0, u1, u2, u3, u4, u5, u6, u7, u8, d0, d1, d2, d3, d4, d5, d6, d7, d8,
    rfl⟩ := cube_decomp s hs
  cases f <;> exact ⟨rfl, rfl, rfl, rfl, rfl, rfl⟩

set_option maxHeartbeats 8000000 in
/-- Four clockwise steps of any face return a valid state unchanged. -/
theorem cwStep_four (f : Face) (s : CubeColors) (hs : validState s) :
    (cwStep f)^[4] s = s := by
  obtain ⟨f0, f1, f2, f3, f4, f5, f6, f7, f8, b0, b1, b2, b3, b4, b5, b6, b7, b8,
    l0, l1, l2, l3, l4, l5, l6, l7, l8, r0, r1, r2, r3, r4, r5, r6, r7, r8,
    u0, u1, u2, u3, u4, u5, u6, u7, u8, d0, d1, d2, d3, d4, d5, d6, d7, d8,
    rfl⟩ := cube_decomp s hs
  cases f <;> rfl

/-- Iterating a clockwise step is periodic with period 4 on valid
states. -/
theorem cwStep_iterate_mod (f : Face) (s : CubeColors) (hs : validState s)
    (n : Nat) : (cwStep f)^[n] s = (cwStep f)^[n % 4] s := by
  induction n using Nat.strong_induction_on with
  | _ n ih =>
    by_cases h4 : n < 4
    · rw [Nat.mod_eq_of_lt h4]
    · have hn : n = (n - 4) + 4 := by omega
      rw [hn, Function.iterate_add_apply, cwStep_four f s hs,
        ih (n - 4) (by omega)]
      congr 1
      omega

/-- C1: for every structurally valid cube state and every face, applying
`Move(f, 1)` four times via `CubeStateManager.performMove` returns the
original state sticker for sticker. -/
theorem c1_four_quarter_turns_identity (s : CubeColors) (f : Face)
    (hs : validState s) :
    performMove (performMove (performMove (performMove s ⟨f, 1⟩) ⟨f, 1⟩)
      ⟨f, 1⟩) ⟨f, 1⟩ = s := by
  have h1 : ∀ t : CubeColors, performMove t ⟨f, 1⟩ = cwStep f t := fun t =>
    (performMove_pos t f 1 (by norm_num)).trans rfl
  rw [h1, h1, h1, h1]
  exact cwStep_four f s hs

/-- Witness for C1 at the solved state and the front face. -/
theorem c1_four_quarter_turns_identity_witness :
    validState solvedState ∧
    performMove (performMove (performMove (performMove solvedState
      ⟨Face.F, 1⟩) ⟨Face.F, 1⟩) ⟨Face.F, 1⟩) ⟨Face.F, 1⟩ = solvedState :=
  ⟨by decide, c1_four_quarter_turns_identity solvedState Face.F (by decide)⟩

/-- All 54 stickers of a cube state in one list. -/
def stickers (s : CubeColors) : List String :=
  s.front ++ s.back ++ s.left ++ s.right ++ s.top ++ s.bottom

set_option maxHeartbeats 8000000 in
/-- One clockwise step only permutes the 54 stickers. -/
theorem stickers_cwStep (f : Face) (s : CubeColors) (hs : validState s) :
    (stickers (cwStep f s) : Multiset String) = stickers s := by
  obtain ⟨f0, f1, f2, f3, f4, f5, f6, f7, f8, b0, b1, b2, b3, b4, b5, b6, b7, b8,
    l0, l1, l2, l3, l4, l5, l6, l7, l8, r0, r1, r2, r3, r4, r5, r6, r7, r8,
    u0, u1, u2, u3, u4, u5, u6, u7, u8, d0, d1, d2, d3, d4, d5, d6, d7, d8,
    rfl⟩ := cube_decomp s hs
  cases f <;>
    (rw [Multiset.coe_eq_coe]
     refine List.perm_iff_count.mpr fun a => ?_
     simp only [stickers, cwStep, rightStep, leftStep, topStep, bottomStep,
       frontStep, backStep, rotateFace, if_true, ite_true,
       List.count_append, List.count_cons, List.count_nil]
     ring)

/-- C3: for every structurally valid state, face, and turns in {1,2,3},
a move permutes the 54 sticker colors: the multiset of stickers is the
same before and after `performMove`. -/
theorem c3_sticker_conservation (s : CubeColors) (f : Face) (r : Int)
    (hs : validState s) (hr : r = 1 ∨ r = 2 ∨ r = 3) :
    (stickers (performMove s ⟨f, r⟩) : Multiset String) = stickers s := by
  have hpos : 0 < r := by rcases hr with h | h | h <;> simp [h]
  rw [performMove_pos s f r hpos]
  have main : ∀ (n : Nat) (t : CubeColors), validState t →
      (stickers ((cwStep f)^[n] t) : Multiset String) = stickers t := by
    intro n
    induction n with
    | zero => intro t _; rfl
    | succ n ih =>
      intro t ht
      rw [Function.iterate_succ_apply,
        ih (cwStep f t) (validState_cwStep f t ht)]
      exact stickers_cwStep f t ht
  exact main r.natAbs s hs

/-- Witness for C3 at the solved state, back face, half turn. -/
theorem c3_sticker_conservation_witness :
    validState solvedState ∧
    ((2 : Int) = 1 ∨ (2 : Int) = 2 ∨ (2 : Int) = 3) ∧
    (stickers (performMove solvedState ⟨Face.B, 2⟩) : Multiset String) =
      stickers solvedState :=
  ⟨by decide, by decide,
    c3_sticker_conservation solvedState Face.B 2 (by decide) (by decide)⟩

end CubeVision

namespace CubeVision

/-- With `clockwise = false`, `rotateLeftFace`'s loop body only rotates
the left face itself: the adjacent strips are untouched because the
source has no counter-clockwise branch. -/
theorem leftStep_false (t : CubeColors) :
    leftStep t false = { t with left := rotateFace t.left false } := by
  unfold leftStep
  split
  next h => simp at h
  next h =>
    dsimp only
    split <;> rfl

/-- Counter-clockwise `rotateTopFace` loop body: top face only. -/
theorem topStep_false (t : CubeColors) :
    topStep t false = { t with top := rotateFace t.top false } := by
  unfold topStep
  split
  next h => simp at h
  next h =>
    dsimp only
    split <;> rfl

/-- Counter-clockwise `rotateBottomFace` loop body: bottom face only. -/
theorem bottomStep_false (t : CubeColors) :
    bottomStep t false = { t with bottom := rotateFace t.bottom false } := by
  unfold bottomStep
  split
  next h => simp at h
  next h =>
    dsimp only
    split <;> rfl

/-- Counter-clockwise `rotateFrontFace` loop body: front face only. -/
theorem frontStep_false (t : CubeColors) :
    frontStep t false = { t with front := rotateFace t.front false } := by
  unfold frontStep
  split
  next h => simp at h
  next h =>
    dsimp only
    split <;> rfl

/-- Counter-clockwise `rotateBackFace` loop body: back face only. -/
theorem backStep_false (t : CubeColors) :
    backStep t false = { t with back := rotateFace t.back false } := by
  unfold backStep
  split
  next h => simp at h
  next h =>
    dsimp only
    split <;> rfl

/-- Iterating the counter-clockwise left step never touches the four
adjacent faces. -/
theorem iterate_leftStep_false (n : Nat) (t : CubeColors) :
    ((fun st => leftStep st false)^[n] t).front = t.front ∧
    ((fun st => leftStep st false)^[n] t).top = t.top ∧
    ((fun st => leftStep st false)^[n] t).back = t.back ∧
    ((fun st => leftStep st false)^[n] t).bottom = t.bottom := by
  induction n generalizing t with
  | zero => exact ⟨rfl, rfl, rfl, rfl⟩
  | succ n ih =>
    rw [Function.iterate_succ_apply, leftStep_false]
    exact ih { t with left := rotateFace t.left false }

/-- Iterating the counter-clockwise top step never touches the four
adjacent faces. -/
theorem iterate_topStep_false (n : Nat) (t : CubeColors) :
    ((fun st => topStep st false)^[n] t).front = t.front ∧
    ((fun st => topStep st false)^[n] t).left = t.left ∧
    ((fun st => topStep st false)^[n] t).back = t.back ∧
    ((fun st => topStep st false)^[n] t).right = t.right := by
  induction n generalizing t with
  | zero => exact ⟨rfl, rfl, rfl, rfl⟩
  | succ n ih =>
    rw [Function.iterate_succ_apply, topStep_false]
    exact ih { t with top := rotateFace t.top false }

/-- Iterating the counter-clockwise bottom step never touches the four
adjacent faces. -/
theorem iterate_bottomStep_false (n : Nat) (t : CubeColors) :
    ((fun st => bottomStep st false)^[n] t).front = t.front ∧
    ((fun st => bottomStep st false)^[n] t).left = t.left ∧
    ((fun st => bottomStep st false)^[n] t).back = t.back ∧
    ((fun st => bottomStep st false)^[n] t).right = t.right := by
  induction n generalizing t with
  | zero => exact ⟨rfl, rfl, rfl, rfl⟩
  | succ n ih =>
    rw [Function.iterate_succ_apply, bottomStep_false]
    exact ih { t with bottom := rotateFace t.bottom false }

/-- Iterating the counter-clockwise front step never touches the four
adjacent faces. -/
theorem iterate_frontStep_false (n : Nat) (t : CubeColors) :
    ((fun st => frontStep st false)^[n] t).top = t.top ∧
    ((fun st => frontStep st false)^[n] t).left = t.left ∧
    ((fun st => frontStep st false)^[n] t).bottom = t.bottom ∧
    ((fun st => frontStep st false)^[n] t).right = t.right := by
  induction n generalizing t with
  | zero => exact ⟨rfl, rfl, rfl, rfl⟩
  | succ n ih =>
    rw [Function.iterate_succ_apply, frontStep_false]
    exact ih { t with front := rotateFace t.front false }

/-- Iterating the counter-clockwise back step never touches the four
adjacent faces. -/
theorem iterate_backStep_false (n : Nat) (t : CubeColors) :
    ((fun st => backStep st false)^[n] t).top = t.top ∧
    ((fun st => backStep st false)^[n] t).left = t.left ∧
    ((fun st => backStep st false)^[n] t).bottom = t.bottom ∧
    ((fun st => backStep st false)^[n] t).right = t.right := by
  induction n generalizing t with
  | zero => exact ⟨rfl, rfl, rfl, rfl⟩
  | succ n ih =>
    rw [Function.iterate_succ_apply, backStep_false]
    exact ih { t with back := rotateFace t.back false }

/-- C5: for every structurally valid state, each of the five helpers
other than the right face, called with a negative (counter-clockwise)
rotation, leaves the sticker strips of its four adjacent faces
unchanged: only the clockwise branch cycles the adjacent strips. -/
theorem c5_counterclockwise_strips_noop (s : CubeColors)
    (_hs : validState s) (r : Int) (hr : r < 0) :
    ((rotateLeftFace s r).front = s.front ∧
      (rotateLeftFace s r).top = s.top ∧
      (rotateLeftFace s r).back = s.back ∧
      (rotateLeftFace s r).bottom = s.bottom) ∧
    ((rotateTopFace s r).front = s.front ∧
      (rotateTopFace s r).left = s.left ∧
      (rotateTopFace s r).back = s.back ∧
      (rotateTopFace s r).right = s.right) ∧
    ((rotateBottomFace s r).front = s.front ∧
      (rotateBottomFace s r).left = s.left ∧
      (rotateBottomFace s r).back = s.back ∧
      (rotateBottomFace s r).right = s.right) ∧
    ((rotateFrontFace s r).top = s.top ∧
      (rotateFrontFace s r).left = s.left ∧
      (rotateFrontFace s r).bottom = s.bottom ∧
      (rotateFrontFace s r).right = s.right) ∧
    ((rotateBackFace s r).top = s.top ∧
      (rotateBackFace s r).left = s.left ∧
      (rotateBackFace s r).bottom = s.bottom ∧
      (rotateBackFace s r).right = s.right) := by
  have hd : decide (0 < r) = false := decide_eq_false (by omega)
  have hL : rotateLeftFace s r = (fun st => leftStep st false)^[r.natAbs] s := by
    show (fun st => leftStep st (decide (0 < r)))^[r.natAbs] s = _
    simp only [hd]
  have hU : rotateTopFace s r = (fun st => topStep st false)^[r.natAbs] s := by
    show (fun st => topStep st (decide (0 < r)))^[r.natAbs] s = _
    simp only [hd]
  have hD : rotateBottomFace s r =
      (fun st => bottomStep st false)^[r.natAbs] s := by
    show (fun st => bottomStep st (decide (0 < r)))^[r.natAbs] s = _
    simp only [hd]
  have hF : rotateFrontFace s r =
      (fun st => frontStep st false)^[r.natAbs] s := by
    show (fun st => frontStep st (decide (0 < r)))^[r.natAbs] s = _
    simp only [hd]
  have hB : rotateBackFace s r = (fun st => backStep st false)^[r.natAbs] s := by
    show (fun st => backStep st (decide (0 < r)))^[r.natAbs] s = _
    simp only [hd]
  rw [hL, hU, hD, hF, hB]
  exact ⟨iterate_leftStep_false r.natAbs s, iterate_topStep_false r.natAbs s,
    iterate_bottomStep_false r.natAbs s, iterate_frontStep_false r.natAbs s,
    iterate_backStep_false r.natAbs s⟩

/-- Witness for C5 at the solved state with rotation -1. -/
theorem c5_counterclockwise_strips_noop_witness :
    validState solvedState ∧ (-1 : Int) < 0 ∧
    (((rotateLeftFace solvedState (-1)).front = solvedState.front ∧
      (rotateLeftFace solvedState (-1)).top = solvedState.top ∧
      (rotateLeftFace solvedState (-1)).back = solvedState.back ∧
      (rotateLeftFace solvedState (-1)).bottom = solvedState.bottom) ∧
    ((rotateTopFace solvedState (-1)).front = solvedState.front ∧
      (rotateTopFace solvedState (-1)).left = solvedState.left ∧
      (rotateTopFace solvedState (-1)).back = solvedState.back ∧
      (rotateTopFace solvedState (-1)).right = solvedState.right) ∧
    ((rotateBottomFace solvedState (-1)).front = solvedState.front ∧
      (rotateBottomFace solvedState (-1)).left = solvedState.left ∧
      (rotateBottomFace solvedState (-1)).back = solvedState.back ∧
      (rotateBottomFace solvedState (-1)).right = solvedState.right) ∧
    ((rotateFrontFace solvedState (-1)).top = solvedState.top ∧
      (rotateFrontFace solvedState (-1)).left = solvedState.left ∧
      (rotateFrontFace solvedState (-1)).bottom = solvedState.bottom ∧
      (rotateFrontFace solvedState (-1)).right = solvedState.right) ∧
    ((rotateBackFace solvedState (-1)).top = solvedState.top ∧
      (rotateBackFace solvedState (-1)).left = solvedState.left ∧
      (rotateBackFace solvedState (-1)).bottom = solvedState.bottom ∧
      (rotateBackFace solvedState (-1)).right = solvedState.right)) :=
  ⟨by decide, by decide,
    c5_counterclockwise_strips_noop solvedState (by decide) (-1) (by decide)⟩

end CubeVision

namespace CubeVision

/-- The letter printed for each face. -/
def faceChar : Face → Char
  | .R => 'R'
  | .L => 'L'
  | .U => 'U'
  | .D => 'D'
  | .F => 'F'
  | .B => 'B'

/-- The face recognized for a token's first character; `none` models the
source's `['R','L','U','D','F','B'].includes(face)` test failing. -/
def faceOfChar (c : Char) : Option Face :=
  match c with
  | 'R' => some .R
  | 'L' => some .L
  | 'U' => some .U
  | 'D' => some .D
  | 'F' => some .F
  | 'B' => some .B
  | _ => none

/-- The token printed for one move by `algorithmToNotation`:
rotation 1 is a bare letter, 2 appends "2", 3 appends "'".
Strings are embedded as lists of characters. -/
def moveToken (m : Move) : List Char :=
  if m.rotation = 1 then [faceChar m.face]
  else if m.rotation = 2 then [faceChar m.face, '2']
  else if m.rotation = 3 then [faceChar m.face, '\'']
  else [faceChar m.face]

/-- `algorithmToNotation` from `cubeUtils.ts`: map each move to its
token and join with single spaces. -/
def algorithmToNotation (ms : List Move) : List Char :=
  List.intercalate [' '] (ms.map moveToken)

/-- JavaScript's `String.split(' ')` on a character list. -/
def splitSpace : List Char → List (List Char)
  | [] => [[]]
  | c :: rest =>
    let r := splitSpace rest
    if c = ' ' then [] :: r
    else
      match r with
      | t :: ts => (c :: t) :: ts
      | [] => [[c]]

/-- The per-token body of `parseNotation`: take the first character as
the face, rotation 2 if the token contains '2', else 3 if it contains
an apostrophe, else 1; drop the token if the first character is not a
face letter. -/
def parseToken (t : List Char) : Option Move :=
  match t with
  | [] => none
  | c :: _ =>
    match faceOfChar c with
    | some f =>
        some ⟨f, if t.contains '2' then 2
          else if t.contains '\'' then 3 else 1⟩
    | none => none

/-- `parseNotation` from `cubeUtils.ts`: split on spaces, keep tokens
whose trim is non-empty (they contain a non-whitespace character), and
collect the recognized moves. -/
def parseNotation (s : List Char) : List Move :=
  ((splitSpace s).filter
    (fun t => t.any (fun c => ! c.isWhitespace))).filterMap parseToken

/-- Splitting a space-free string yields the single token. -/
theorem splitSpace_no_space (t : List Char) (h : ' ' ∉ t) :
    splitSpace t = [t] := by
  induction t with
  | nil => rfl
  | cons c t ih =>
    have hc : ¬(c = ' ') := fun hc => h (hc ▸ List.mem_cons_self c t)
    have ht : ' ' ∉ t := fun hm => h (List.mem_cons_of_mem c hm)
    simp [splitSpace, hc, ih ht]

/-- Splitting a space-free token followed by a space peels the token. -/
theorem splitSpace_append_space (t rest : List Char) (h : ' ' ∉ t) :
    splitSpace (t ++ ' ' :: rest) = t :: splitSpace rest := by
  induction t with
  | nil => simp [splitSpace]
  | cons c t ih =>
    have hc : ¬(c = ' ') := fun hc => h (hc ▸ List.mem_cons_self c t)
    have ht : ' ' ∉ t := fun hm => h (List.mem_cons_of_mem c hm)
    simp [splitSpace, hc, ih ht]

/-- Splitting an intercalation of space-free tokens recovers them. -/
theorem splitSpace_intercalate (ts : List (List Char))
    (h : ∀ t ∈ ts, ' ' ∉ t) (hne : ts ≠ []) :
    splitSpace (List.intercalate [' '] ts) = ts := by
  induction ts with
  | nil => cases hne rfl
  | cons t ts ih =>
    cases ts with
    | nil =>
      have h1 : List.intercalate [' '] [t] = t := by
        simp [List.intercalate]
      rw [h1, splitSpace_no_space t (h t (List.mem_cons_self t []))]
    | cons t2 ts2 =>
      have hstep : List.intercalate [' '] (t :: t2 :: ts2) =
          t ++ ' ' :: List.intercalate [' '] (t2 :: ts2) := by
        simp [List.intercalate, List.intersperse]
      rw [hstep,
        splitSpace_append_space t _ (h t (List.mem_cons_self t _)),
        ih (fun x hx => h x (List.mem_cons_of_mem _ hx)) (by simp)]

/-- A printed token never contains a space. -/
theorem moveToken_no_space (m : Move) : ' ' ∉ moveToken m := by
  unfold moveToken
  split
  · cases m.face <;> decide
  · split
    · cases m.face <;> decide
    · split
      · cases m.face <;> decide
      · cases m.face <;> decide

/-- A printed token survives the `token.trim()` filter. -/
theorem moveToken_keep (m : Move) :
    (moveToken m).any (fun c => ! c.isWhitespace) = true := by
  unfold moveToken
  split
  · cases m.face <;> decide
  · split
    · cases m.face <;> decide
    · split
      · cases m.face <;> decide
      · cases m.face <;> decide

/-- Parsing the printed token of a valid move recovers the move. -/
theorem parseToken_moveToken (m : Move)
    (h : m.rotation = 1 ∨ m.rotation = 2 ∨ m.rotation = 3) :
    parseToken (moveToken m) = some m := by
  obtain ⟨f, r⟩ := m
  rcases h with h | h | h <;> simp only at h <;> subst h <;> cases f <;> decide

/-- Parsing printed tokens one by one recovers a valid move list. -/
theorem filterMap_parseToken_map (ms : List Move)
    (h : ∀ m ∈ ms, m.rotation = 1 ∨ m.rotation = 2 ∨ m.rotation = 3) :
    (ms.map moveToken).filterMap parseToken = ms := by
  induction ms with
  | nil => rfl
  | cons m ms ih =>
    simp only [List.map_cons, List.filterMap_cons,
      parseToken_moveToken m (h m (List.mem_cons_self m ms)),
      ih (fun x hx => h x (List.mem_cons_of_mem m hx))]

/-- C6: for every list of valid moves (rotation in {1,2,3}),
`parseNotation (algorithmToNotation ms) = ms`: formatting then parsing
is the identity. -/
theorem c6_notation_roundtrip (ms : List Move)
    (h : ∀ m ∈ ms, m.rotation = 1 ∨ m.rotation = 2 ∨ m.rotation = 3) :
    parseNotation ( algorithmToNotation ms) = ms := by
  cases ms with
  | nil => rfl
  | cons m ms' =>
    unfold parseNotation algorithmToNotation
    rw [splitSpace_intercalate ((m :: ms').map moveToken)
      (by
        intro t ht
        obtain ⟨x, _, rfl⟩ := List.mem_map.mp ht
        exact moveToken_no_space x)
      (by simp)]
    rw [List.filter_eq_self.mpr
      (by
        intro t ht
        obtain ⟨x, _, rfl⟩ := List.mem_map.mp ht
        exact moveToken_keep x)]
    exact filterMap_parseToken_map _ h

/-- Witness for C6 at the right-hand algorithm R U R' U'. -/
theorem c6_notation_roundtrip_witness :
    (∀ m ∈ [Move.mk Face.R 1, Move.mk Face.U 1, Move.mk Face.R 3,
        Move.mk Face.U 3],
      m.rotation = 1 ∨ m.rotation = 2 ∨ m.rotation = 3) ∧
    parseNotation ( algorithmToNotation [Move.mk Face.R 1, Move.mk Face.U 1,
      Move.mk Face.R 3, Move.mk Face.U 3]) =
      [Move.mk Face.R 1, Move.mk Face.U 1, Move.mk Face.R 3,
        Move.mk Face.U 3] :=
  ⟨by decide, c6_notation_roundtrip _ (by decide)⟩

end CubeVision

namespace CubeVision

/-- A recognized first character is one of the six face letters. -/
theorem faceOfChar_eq_some (c : Char) (f : Face)
    (h : faceOfChar c = some f) : c = faceChar f := by
  unfold faceOfChar at h
  split at h
  all_goals first
    | (injection h with h; subst h; rfl)
    | exact Option.noConfusion h

/-- Face letters are not whitespace. -/
theorem faceChar_not_whitespace (f : Face) :
    (faceChar f).isWhitespace = false := by
  cases f <;> decide

/-- C10: `parseNotation` on a single space-free token starting with a
recognized face letter assigns rotation 2 whenever the token contains
'2' anywhere — even if an apostrophe is also present — and rotation 3
from an apostrophe only when no '2' occurs; a token whose first
character is not a face letter contributes no move. -/
theorem c10_parse_precedence (c : Char) (rest : List Char)
    (hns : ' ' ∉ c :: rest) :
    (∀ f, faceOfChar c = some f → (c :: rest).contains '2' = true →
      parseNotation (c :: rest) = [⟨f, 2⟩]) ∧
    (∀ f, faceOfChar c = some f → (c :: rest).contains '2' = false →
      (c :: rest).contains '\'' = true →
      parseNotation (c :: rest) = [⟨f, 3⟩]) ∧
    (faceOfChar c = none → parseNotation (c :: rest) = []) := by
  have hsplit : splitSpace (c :: rest) = [c :: rest] :=
    splitSpace_no_space _ hns
  refine ⟨?_, ?_, ?_⟩
  · intro f hf h2
    have hws : c.isWhitespace = false :=
      faceOfChar_eq_some c f hf ▸ faceChar_not_whitespace f
    unfold parseNotation
    rw [hsplit]
    simp at h2
    simp [List.filter, List.filterMap, hws, parseToken, hf, h2]
  · intro f hf h2 hq
    have hws : c.isWhitespace = false :=
      faceOfChar_eq_some c f hf ▸ faceChar_not_whitespace f
    unfold parseNotation
    rw [hsplit]
    simp at h2 hq
    simp [List.filter, List.filterMap, hws, parseToken, hf, h2, hq]
  · intro hf
    unfold parseNotation
    rw [hsplit]
    cases hany : (c :: rest).any (fun x => ! x.isWhitespace) with
    | false => simp [List.filter, hany]
    | true => simp [List.filter, List.filterMap, hany, parseToken, hf]

/-- Witness for C10 at the token "R2'", which parses to Move(R, 2). -/
theorem c10_parse_precedence_witness :
    ' ' ∉ ('R' :: ['2', '\'']) ∧
    parseNotation ('R' :: ['2', '\'']) = [⟨Face.R, 2⟩] :=
  ⟨by decide,
    (c10_parse_precedence 'R' ['2', '\''] (by decide)).1 Face.R
      (by decide) (by decide)⟩

end CubeVision

namespace CubeVision

/-- The six standard colors checked by `validateCubeState`. -/
def standardColors : List String :=
  ["white", "yellow", "red", "orange", "green", "blue"]

/-- First-occurrence traversal with an accumulator of already-seen
colors. -/
def dedupFirstAux (seen : List String) : List String → List String
  | [] => []
  | c :: rest =>
    if c ∈ seen then dedupFirstAux seen rest
    else c :: dedupFirstAux (c :: seen) rest

/-- First-occurrence deduplication, modelling `Object.keys(colorCounts)`
insertion order (a key is created at a color's first occurrence). -/
def dedupFirst (l : List String) : List String :=
  dedupFirstAux [] l

/-- The `{ isValid, errors }` result of `validateCubeState`. -/
structure ValidationResult : Type where
  isValid : Bool
  errors : List String
deriving DecidableEq, Repr

/-- `validateCubeState` from `ImageCropper.tsx`: count every sticker
color, report each standard color whose count differs from 9 (in the
fixed order white, yellow, red, orange, green, blue), then report every
non-standard color that occurs; `isValid` iff no errors. -/
def validateCubeState (faces : List (List String)) : ValidationResult :=
  let all := faces.join
  let countErrors := standardColors.filterMap fun c =>
    let n := all.count c
    if n ≠ 9 then some (c ++ ": expected 9, found " ++ toString n) else none
  let unknownErrors := (dedupFirst all).filterMap fun c =>
    if c ∈ standardColors then none
    else some ("Unknown color detected: " ++ c)
  let errors := countErrors ++ unknownErrors
  ⟨decide (errors.length = 0), errors⟩

/-- `validateCubeState` applied to a full six-face state (the record
values the UI passes in). -/
def validateCube (s : CubeColors) : ValidationResult :=
  validateCubeState [s.front, s.back, s.left, s.right, s.top, s.bottom]

/-- The sticker multiset with one yellow replaced by a white. -/
def imbalancedMultiset : Multiset String :=
  ↑(List.replicate 10 "white" ++ List.replicate 8 "yellow" ++
    List.replicate 9 "red" ++ List.replicate 9 "orange" ++
    List.replicate 9 "green" ++ List.replicate 9 "blue")

/-- The accumulator traversal only emits elements of the list. -/
theorem mem_of_mem_dedupFirstAux (l : List String) :
    ∀ (seen : List String) (a : String),
      a ∈ dedupFirstAux seen l → a ∈ l := by
  induction l with
  | nil => intro seen a ha; simpa [dedupFirstAux] using ha
  | cons c rest ih =>
    intro seen a ha
    rw [dedupFirstAux] at ha
    by_cases hc : c ∈ seen
    · rw [if_pos hc] at ha
      exact List.mem_cons_of_mem _ (ih seen a ha)
    · rw [if_neg hc] at ha
      rcases List.mem_cons.mp ha with h | h
      · exact h ▸ List.mem_cons_self _ _
      · exact List.mem_cons_of_mem _ (ih (c :: seen) a h)

/-- Deduplication only keeps elements of the original list. -/
theorem mem_of_mem_dedupFirst (l : List String) (a : String)
    (ha : a ∈ dedupFirst l) : a ∈ l :=
  mem_of_mem_dedupFirstAux l [] a ha

/-- C7: any cube state whose 54 stickers are 10 white, 8 yellow, and 9
each of red, orange, green, blue fails validation with exactly the two
errors "white: expected 9, found 10" and "yellow: expected 9, found 8". -/
theorem c7_validator_detects_imbalance (s : CubeColors)
    (h : (stickers s : Multiset String) = imbalancedMultiset) :
    validateCube s =
      ⟨false, ["white: expected 9, found 10",
        "yellow: expected 9, found 8"]⟩ := by
  have hcount : ∀ a : String,
      (stickers s).count a = Multiset.count a imbalancedMultiset := by
    intro a
    rw [← h]
    simp
  have hw : (stickers s).count "white" = 10 :=
    (hcount "white").trans (by decide)
  have hy : (stickers s).count "yellow" = 8 :=
    (hcount "yellow").trans (by decide)
  have hr : (stickers s).count "red" = 9 :=
    (hcount "red").trans (by decide)
  have ho : (stickers s).count "orange" = 9 :=
    (hcount "orange").trans (by decide)
  have hg : (stickers s).count "green" = 9 :=
    (hcount "green").trans (by decide)
  have hb : (stickers s).count "blue" = 9 :=
    (hcount "blue").trans (by decide)
  have hmem : ∀ a ∈ stickers s, a ∈ standardColors := by
    intro a ha
    have hm : a ∈ (stickers s : Multiset String) := by simpa using ha
    rw [h] at hm
    simp [imbalancedMultiset, List.mem_replicate] at hm
    rcases hm with h1 | h1 | h1 | h1 | h1 | h1 <;>
      simp [standardColors, h1]
  have hjoin :
      ([s.front, s.back, s.left, s.right, s.top, s.bottom] :
        List (List String)).join = stickers s := by
    simp [stickers]
  have hunknown :
      (dedupFirst (stickers s)).filterMap (fun c =>
        if c ∈ standardColors then none
        else some ("Unknown color detected: " ++ c)) = [] := by
    refine List.filterMap_eq_nil_iff.mpr fun a ha => ?_
    exact if_pos (hmem a (mem_of_mem_dedupFirst _ a ha))
  show validateCubeState _ = _
  unfold validateCubeState
  simp only [hjoin, standardColors, List.filterMap_cons, List.filterMap_nil,
    hw, hy, hr, ho, hg, hb, hunknown]
  norm_num
  refine ⟨by decide, by decide, fun a ha h1 h2 h3 h4 h5 h6 => ?_⟩
  have hstd := hmem a (mem_of_mem_dedupFirst _ a ha)
  simp [standardColors] at hstd
  rcases hstd with hc | hc | hc | hc | hc | hc <;> simp_all

end CubeVision

namespace CubeVision

/-- A concrete state with 10 white and 8 yellow stickers. -/
def imbalancedState : CubeColors :=
  ⟨List.replicate 9 "red", List.replicate 9 "orange",
   List.replicate 9 "blue", List.replicate 9 "green",
   List.replicate 9 "white", "white" :: List.replicate 8 "yellow"⟩

/-- Witness for C7 at a concrete imbalanced state. -/
theorem c7_validator_detects_imbalance_witness :
    (stickers imbalancedState : Multiset String) = imbalancedMultiset ∧
    validateCube imbalancedState =
      ⟨false, ["white: expected 9, found 10",
        "yellow: expected 9, found 8"]⟩ :=
  ⟨by decide, c7_validator_detects_imbalance imbalancedState (by decide)⟩

/-- `Partial<CubeColors>` from the zustand store: each face's sticker
array may be absent. -/
structure OptCubeColors : Type where
  front : Option (List String)
  back : Option (List String)
  left : Option (List String)
  right : Option (List String)
  top : Option (List String)
  bottom : Option (List String)
deriving DecidableEq, Repr

/-- The `cubeState` phase field of the store. -/
inductive CubePhase : Type where
  | empty | images_uploaded | colors_detected | ready_to_solve
  | solving | solved
deriving DecidableEq, Repr

/-- One entry of `savedCubes` in `useCube.tsx`. -/
structure SavedCube : Type where
  id : String
  name : String
  timestamp : Nat
  faceImages : List (String × String)
  faceColors : OptCubeColors
deriving DecidableEq, Repr

/-- The slice of the store state that `saveCube` / `loadCube` touch. -/
structure StoreState : Type where
  faceImages : List (String × String)
  faceColors : OptCubeColors
  cubeState : CubePhase
  savedCubes : List SavedCube
deriving DecidableEq, Repr

/-- `saveCube` from `useCube.tsx`: append a new entry with the given id
(`Date.now().toString()` in the source), name, and timestamp, holding
the current images and colors. -/
def saveCube (st : StoreState) (idStr cubeName : String) (ts : Nat) :
    StoreState :=
  { st with savedCubes := st.savedCubes ++
      [⟨idStr, cubeName, ts, st.faceImages, st.faceColors⟩] }

/-- `loadCube` from `useCube.tsx`: find the saved cube by id and
restore its images and colors; no-op when the id is absent. -/
def loadCube (st : StoreState) (cubeId : String) : StoreState :=
  match st.savedCubes.find? (fun c => decide (c.id = cubeId)) with
  | some cube =>
      { st with
        faceImages := cube.faceImages
        faceColors := cube.faceColors
        cubeState := .ready_to_solve }
  | none => st

/-- C8: saving the current face colors under a fresh id and loading
that id restores the face colors exactly, for all six faces. -/
theorem c8_save_load_roundtrip (st : StoreState) (idStr cubeName : String)
    (ts : Nat) (hfresh : ∀ c ∈ st.savedCubes, c.id ≠ idStr) :
    (loadCube (saveCube st idStr cubeName ts) idStr).faceColors =
      st.faceColors := by
  have h1 : st.savedCubes.find? (fun c => decide (c.id = idStr)) = none :=
    List.find?_eq_none.mpr fun x hx => by simp [hfresh x hx]
  have hfind : (st.savedCubes ++
      [(⟨idStr, cubeName, ts, st.faceImages, st.faceColors⟩ : SavedCube)]).find?
        (fun c => decide (c.id = idStr)) =
      some ⟨idStr, cubeName, ts, st.faceImages, st.faceColors⟩ := by
    rw [List.find?_append, h1]
    simp [List.find?]
  unfold loadCube saveCube
  simp only [hfind]

/-- A concrete store used to witness the save/load round-trip. -/
def demoStore : StoreState :=
  ⟨[("front", "img0")],
   ⟨some (List.replicate 9 "red"), some (List.replicate 9 "orange"),
    some (List.replicate 9 "blue"), some (List.replicate 9 "green"),
    some (List.replicate 9 "white"), some (List.replicate 9 "yellow")⟩,
   CubePhase.colors_detected, []⟩

/-- Witness for C8 at a concrete store and id. -/
theorem c8_save_load_roundtrip_witness :
    (∀ c ∈ demoStore.savedCubes, c.id ≠ "1700000000000") ∧
    (loadCube (saveCube demoStore "1700000000000" "Cube" 1700000000000)
      "1700000000000").faceColors = demoStore.faceColors :=
  ⟨by decide,
    c8_save_load_roundtrip demoStore "1700000000000" "Cube" 1700000000000
      (by decide)⟩

end CubeVision

namespace CubeVision

/-- `optimizeMoves` from `cubeUtils.ts`: merge each maximal run of
consecutive same-face moves into one move whose rotation is the sum
modulo 4, dropping the run when the sum is a multiple of 4. -/
def optimizeMoves : List Move → List Move
  | [] => []
  | m :: rest =>
    let total := (m.rotation +
      ((rest.takeWhile fun x => decide (x.face = m.face)).map
        Move.rotation).sum) % 4
    let remaining := rest.dropWhile fun x => decide (x.face = m.face)
    if total = 0 then optimizeMoves remaining
    else ⟨m.face, total⟩ :: optimizeMoves remaining
termination_by l => l.length
decreasing_by
  all_goals
    simp_wf
    exact Nat.lt_succ_of_le
      (List.Sublist.length_le (List.dropWhile_sublist _))

/-- `performMove` in packed-move form, for positive rotations. -/
theorem performMove_pos' (s : CubeColors) (m : Move)
    (hr : 0 < m.rotation) :
    performMove s m = (cwStep m.face)^[m.rotation.natAbs] s :=
  performMove_pos s m.face m.rotation hr

/-- Iterating the clockwise step preserves structural validity. -/
theorem validState_iterate (f : Face) (n : Nat) (s : CubeColors)
    (hs : validState s) : validState ((cwStep f)^[n] s) := by
  induction n generalizing s with
  | zero => exact hs
  | succ n ih =>
    rw [Function.iterate_succ_apply]
    exact ih _ (validState_cwStep f s hs)

/-- Valid rotations sum to a nonnegative total. -/
theorem sum_rotations_nonneg (l : List Move)
    (h : ∀ m ∈ l, m.rotation = 1 ∨ m.rotation = 2 ∨ m.rotation = 3) :
    0 ≤ (l.map Move.rotation).sum := by
  induction l with
  | nil => simp
  | cons m l ih =>
    simp only [List.map_cons, List.sum_cons]
    have h1 := h m (List.mem_cons_self m l)
    have h2 := ih fun x hx => h x (List.mem_cons_of_mem m hx)
    rcases h1 with h1 | h1 | h1 <;> omega

/-- Applying moves distributes over list append. -/
theorem applyMoves_append (s : CubeColors) (l1 l2 : List Move) :
    applyMoves s (l1 ++ l2) = applyMoves (applyMoves s l1) l2 :=
  List.foldl_append performMove s l1 l2

/-- A run of valid moves all on the same face amounts to iterating that
face's clockwise step by the total rotation. -/
theorem applyMoves_run (f : Face) (run : List Move) (s : CubeColors)
    (hface : ∀ m ∈ run, m.face = f)
    (hval : ∀ m ∈ run, m.rotation = 1 ∨ m.rotation = 2 ∨ m.rotation = 3) :
    applyMoves s run = (cwStep f)^[((run.map Move.rotation).sum).toNat] s := by
  induction run generalizing s with
  | nil => rfl
  | cons m run ih =>
    have hf : m.face = f := hface m (List.mem_cons_self m run)
    have hr := hval m (List.mem_cons_self m run)
    have hpos : 0 < m.rotation := by rcases hr with h | h | h <;> omega
    have hstep : applyMoves s (m :: run) = applyMoves (performMove s m) run :=
      rfl
    rw [hstep,
      ih (performMove s m) (fun x hx => hface x (List.mem_cons_of_mem m hx))
        (fun x hx => hval x (List.mem_cons_of_mem m hx)),
      performMove_pos' s m hpos, hf, ← Function.iterate_add_apply]
    simp only [List.map_cons, List.sum_cons]
    congr 1
    have hS := sum_rotations_nonneg run
      fun x hx => hval x (List.mem_cons_of_mem m hx)
    omega

/-- C9: replaying the optimized move list reaches the same state as
replaying the original list, for every structurally valid start state
and every list of valid moves. -/
theorem c9_optimizeMoves_preserves_effect (ms : List Move) (s : CubeColors)
    (hs : validState s)
    (hv : ∀ m ∈ ms, m.rotation = 1 ∨ m.rotation = 2 ∨ m.rotation = 3) :
    applyMoves s ( optimizeMoves ms) = applyMoves s ms := by
  suffices hgen : ∀ (n : Nat) (l : List Move), l.length ≤ n →
      ∀ t : CubeColors, validState t →
      (∀ m ∈ l, m.rotation = 1 ∨ m.rotation = 2 ∨ m.rotation = 3) →
      applyMoves t ( optimizeMoves l) = applyMoves t l by
    exact hgen ms.length ms le_rfl s hs hv
  intro n
  induction n with
  | zero =>
    intro l hlen t _ _
    have hnil : l = [] := List.eq_nil_of_length_eq_zero (Nat.le_zero.mp hlen)
    subst hnil
    simp only [optimizeMoves]
  | succ n ih =>
    intro l hlen t ht hvl
    cases l with
    | nil => simp only [optimizeMoves]
    | cons m rest =>
      have hsplit : (rest.takeWhile fun x => decide (x.face = m.face)) ++
          (rest.dropWhile fun x => decide (x.face = m.face)) = rest :=
        List.takeWhile_append_dropWhile _ _
      have hfacerun :
          ∀ x ∈ m :: rest.takeWhile (fun x => decide (x.face = m.face)),
            x.face = m.face := by
        intro x hx
        rcases List.mem_cons.mp hx with h | h
        · rw [h]
        · exact of_decide_eq_true
            (@List.mem_takeWhile_imp Move
              (fun y => decide (y.face = m.face)) rest x h)
      have hmemrun :
          ∀ x ∈ rest.takeWhile (fun x => decide (x.face = m.face)),
            x ∈ rest := by
        intro x hx
        rw [← hsplit]
        exact List.mem_append.mpr (Or.inl hx)
      have hmemrem :
          ∀ x ∈ rest.dropWhile (fun x => decide (x.face = m.face)),
            x ∈ rest := by
        intro x hx
        rw [← hsplit]
        exact List.mem_append.mpr (Or.inr hx)
      have hvalrun :
          ∀ x ∈ m :: rest.takeWhile (fun x => decide (x.face = m.face)),
            x.rotation = 1 ∨ x.rotation = 2 ∨ x.rotation = 3 := by
        intro x hx
        rcases List.mem_cons.mp hx with h | h
        · exact h ▸ hvl m (List.mem_cons_self m rest)
        · exact hvl x (List.mem_cons_of_mem m (hmemrun x h))
      have hvalrem :
          ∀ x ∈ rest.dropWhile (fun x => decide (x.face = m.face)),
            x.rotation = 1 ∨ x.rotation = 2 ∨ x.rotation = 3 :=
        fun x hx => hvl x (List.mem_cons_of_mem m (hmemrem x hx))
      have hlenrem :
          (rest.dropWhile fun x => decide (x.face = m.face)).length ≤ n := by
        have h1 := List.Sublist.length_le
          (@List.dropWhile_sublist Move rest
            (fun x => decide (x.face = m.face)))
        simp only [List.length_cons] at hlen
        omega
      have hnn := sum_rotations_nonneg
        (m :: rest.takeWhile fun x => decide (x.face = m.face)) hvalrun
      simp only [List.map_cons, List.sum_cons] at hnn
      have hRHS : applyMoves t (m :: rest) =
          applyMoves ((cwStep m.face)^[(m.rotation +
            ((rest.takeWhile fun x => decide (x.face = m.face)).map
              Move.rotation).sum).toNat] t)
            (rest.dropWhile fun x => decide (x.face = m.face)) := by
        conv_lhs => rw [← hsplit]
        rw [show m :: ((rest.takeWhile fun x => decide (x.face = m.face)) ++
            (rest.dropWhile fun x => decide (x.face = m.face))) =
            (m :: rest.takeWhile fun x => decide (x.face = m.face)) ++
            (rest.dropWhile fun x => decide (x.face = m.face)) from rfl]
        rw [applyMoves_append, applyMoves_run m.face _ t hfacerun hvalrun]
        simp only [List.map_cons, List.sum_cons]
      have hopt : optimizeMoves (m :: rest) =
          if ((m.rotation +
              ((rest.takeWhile fun x => decide (x.face = m.face)).map
                Move.rotation).sum) % 4) = 0
          then optimizeMoves (rest.dropWhile fun x => decide (x.face = m.face))
          else ⟨m.face, (m.rotation +
              ((rest.takeWhile fun x => decide (x.face = m.face)).map
                Move.rotation).sum) % 4⟩ ::
            optimizeMoves (rest.dropWhile fun x => decide (x.face = m.face)) := by
        simp only [optimizeMoves]
      rw [hopt, hRHS]
      generalize hS : ((rest.takeWhile fun x => decide (x.face = m.face)).map
        Move.rotation).sum = S
      rw [hS] at hnn
      by_cases h0 : (m.rotation + S) % 4 = 0
      · rw [if_pos h0, ih _ hlenrem t ht hvalrem]
        congr 1
        rw [cwStep_iterate_mod m.face t ht]
        have hmod : (m.rotation + S).toNat % 4 = 0 := by omega
        rw [hmod]
        rfl
      · rw [if_neg h0]
        have hmodpos : 0 < (m.rotation + S) % 4 := by omega
        have hcons : applyMoves t
            ((⟨m.face, (m.rotation + S) % 4⟩ : Move) ::
              optimizeMoves (rest.dropWhile fun x => decide (x.face = m.face))) =
            applyMoves (performMove t ⟨m.face, (m.rotation + S) % 4⟩)
              ( optimizeMoves
                (rest.dropWhile fun x => decide (x.face = m.face))) := rfl
        rw [hcons, performMove_pos' t ⟨m.face, (m.rotation + S) % 4⟩ hmodpos,
          ih _ hlenrem _ (validState_iterate m.face _ t ht) hvalrem]
        congr 1
        have heq : ((m.rotation + S) % 4).natAbs = (m.rotation + S).toNat % 4 := by
          omega
        rw [show (⟨m.face, (m.rotation + S) % 4⟩ : Move).rotation.natAbs =
            (m.rotation + S).toNat % 4 from heq,
          ← cwStep_iterate_mod m.face t ht]

/-- Witness for C9 at the solved state and a sequence with a collapsing
run: R R R R U U merges to a single U2. -/
theorem c9_optimizeMoves_preserves_effect_witness :
    validState solvedState ∧
    (∀ m ∈ [Move.mk Face.R 1, Move.mk Face.R 3, Move.mk Face.U 1,
        Move.mk Face.U 1],
      m.rotation = 1 ∨ m.rotation = 2 ∨ m.rotation = 3) ∧
    applyMoves solvedState ( optimizeMoves [Move.mk Face.R 1,
      Move.mk Face.R 3, Move.mk Face.U 1, Move.mk Face.U 1]) =
      applyMoves solvedState [Move.mk Face.R 1, Move.mk Face.R 3,
        Move.mk Face.U 1, Move.mk Face.U 1] :=
  ⟨by decide, by decide,
    c9_optimizeMoves_preserves_effect _ solvedState (by decide) (by decide)⟩

end CubeVision
